import Mathlib

/-!
Verification development for the second-brain capture agent.

The definitions below are shallow embeddings of the TypeScript source:
pure functions are translated directly; the stateful Durable Object agent
is modelled as explicit state passing over an `AgentState` value, with all
outbound I/O (Slack posts, Notion writes, LLM calls) recorded as an
explicit `Effect` trace and all fallible external calls supplied as
`Except`-valued environment inputs.  JavaScript floating-point arithmetic
on confidences and scores is modelled with `Rat` (all constants in the
source are small decimal literals, exact in binary-or-rational alike for
the comparisons performed).  JavaScript string `length` is the UTF-16
code-unit count; the strings manipulated here are ASCII, where it agrees
with the character count used below.
-/

namespace SecondBrain

/-! ## Generic string helpers (JS semantics) -/

/-- Does `needle` occur at the start of `hay`? (char-list version) -/
def listStartsWith : List Char → List Char → Bool
  | [], _ => true
  | _ :: _, [] => false
  | a :: as, b :: bs => a = b && listStartsWith as bs

/-- Does `needle` occur anywhere in `hay`? (char-list version) -/
def listOccurs (needle : List Char) : List Char → Bool
  | [] => needle.isEmpty
  | c :: t => listStartsWith needle (c :: t) || listOccurs needle t

/-- JavaScript `a.includes(b)`: `b` is a substring of `a`. -/
def jsIncludes (a b : String) : Bool :=
  listOccurs b.toList a.toList

/-- JavaScript `s.toLowerCase()` on the ASCII strings this system
handles. -/
def strToLower (s : String) : String :=
  String.mk (s.toList.map Char.toLower)

/-- The whitespace characters that occur in the strings this system
handles (JS `\s` additionally matches rarer characters). -/
def isWsChar (c : Char) : Bool :=
  c = ' ' || c = '\t' || c = '\n' || c = '\r'

/-- Drop leading whitespace from a character list. -/
def dropWsLead : List Char → List Char
  | [] => []
  | c :: cs => if isWsChar c then dropWsLead cs else c :: cs

/-- JavaScript `s.trim()` on the ASCII strings this system handles. -/
def strTrim (s : String) : String :=
  String.mk ((dropWsLead (dropWsLead s.toList).reverse).reverse)

/-- Accumulating worker for `splitWs`: `acc` is the reversed current
token; `prevWs` records whether the previous character belonged to a
whitespace run (whose field was already emitted). -/
def splitWsAux : List Char → List Char → Bool → List String
  | [], acc, _ => [String.mk acc.reverse]
  | c :: cs, acc, prevWs =>
    if isWsChar c then
      if prevWs then splitWsAux cs acc true
      else String.mk acc.reverse :: splitWsAux cs [] true
    else splitWsAux cs (c :: acc) false

/-- JavaScript `s.split(/\s+/)`: split on maximal whitespace runs,
keeping the empty leading/trailing fields JS produces. -/
def splitWs (s : String) : List String :=
  splitWsAux s.toList [] false

/-! ## Duplicate / name-search scoring (services/search.ts) -/

/-- `calculateSimilarity` from `services/search.ts`: exact
case-insensitive match scores 1; containment either way scores
shorter/longer length; otherwise the common-word count over the larger
word count, scaled by 0.8; no overlap scores 0. -/
def calculateSimilarity (str1 str2 : String) : Rat :=
  let s1 := strToLower str1
  let s2 := strToLower str2
  if s1 = s2 then 1
  else if jsIncludes s1 s2 || jsIncludes s2 s1 then
    let longer : Nat := max s1.length s2.length
    let shorter : Nat := min s1.length s2.length
    (shorter : Rat) / (longer : Rat)
  else
    let words1 := splitWs s1
    let words2 := splitWs s2
    let commonWords := words1.filter (fun w => words2.any (fun w2 => jsIncludes w2 w || jsIncludes w w2))
    if commonWords.length > 0 then
      let wordMax : Nat := max words1.length words2.length
      ((commonWords.length : Rat) / (wordMax : Rat)) * (4 / 5)
    else 0

/-- The similarity function as the (amended) specification words it: the
same four cases, with the word-overlap stage dividing the count of query
words that substring-match a result word by the larger of the two word
counts.  Written from the spec text, to be compared with
`calculateSimilarity`. -/
def specSimilarity (query result : String) : Rat :=
  let q := strToLower query
  let r := strToLower result
  if q = r then 1
  else if jsIncludes q r || jsIncludes r q then
    let lenMin : Nat := min q.length r.length
    let lenMax : Nat := max q.length r.length
    (lenMin : Rat) / (lenMax : Rat)
  else
    let qWords := splitWs q
    let rWords := splitWs r
    let matching := qWords.filter (fun w => rWords.any (fun w2 => jsIncludes w2 w || jsIncludes w w2))
    if matching.length = 0 then 0
    else
      let wordMax : Nat := max qWords.length rWords.length
      ((matching.length : Rat) / (wordMax : Rat)) * (4 / 5)

/-- The four classification categories. -/
inductive Category
  | person
  | project
  | idea
  | admin
deriving DecidableEq, Repr

/-- The lowercase string value of a category (the TS enum is a string
union). -/
def catName : Category → String
  | .person => "person"
  | .project => "project"
  | .idea => "idea"
  | .admin => "admin"

/-- The category string with its first letter capitalized, as produced by
`category.charAt(0).toUpperCase() + category.slice(1)`. -/
def capName : Category → String
  | .person => "Person"
  | .project => "Project"
  | .idea => "Idea"
  | .admin => "Admin"

/-- Match kind recorded on a search result (`'exact' | 'partial' |
'nickname'` in the source). -/
inductive MatchType
  | exactMatch
  | partialMatch
  | nicknameMatch
deriving DecidableEq, Repr

/-- A Notion page as the search code consumes it: its id, the text of its
title property (what `extractName` returns) and the raw text of its
`Nicknames` rich-text property (what `extractNicknames` splits). -/
structure StorePage where
  id : String
  title : String
  nicknamesText : String
deriving DecidableEq, Repr

/-- `extractNicknames` from `services/search.ts`: split the `Nicknames`
rich text on commas, trim each piece, keep the non-empty ones. -/
def extractNicknamesText (raw : String) : List String :=
  ((raw.toList.splitOn ',').map (fun cs => strTrim (String.mk cs))).filter
    (fun n => n.length > 0)

/-- A scored search result (`SearchResult` in `services/search.ts`; the
`page` field is reduced to the page id the agent consumes). -/
structure SearchResult where
  pageId : String
  category : Category
  name : String
  matchType : MatchType
  score : Rat
deriving DecidableEq, Repr

/-- Insert one result into a list sorted by descending score. -/
def insertByScore (r : SearchResult) : List SearchResult → List SearchResult
  | [] => [r]
  | x :: xs => if r.score > x.score then r :: x :: xs else x :: insertByScore r xs

/-- The `sort((a, b) => b.score - a.score)` at the end of `searchByName`:
order results by descending score. -/
def sortByScoreDesc (l : List SearchResult) : List SearchResult :=
  l.foldr insertByScore []

/-- The title-matching pass of `searchByName`: score each page returned
by the store-side `title contains query` filter, keep positive scores. -/
def titleResults (query : String) (category : Category) (pages : List StorePage) :
    List SearchResult :=
  pages.filterMap (fun page =>
    let name := page.title
    let similarity := calculateSimilarity query name
    if similarity > 0 then
      some { pageId := page.id, category := category, name := name,
             matchType := if similarity = 1 then .exactMatch else .partialMatch,
             score := similarity }
    else none)

/-- The nickname pass of `searchByName` (person category, no title
match): for each page, take the first nickname scoring above 0.5 and
record it at 0.9 times its similarity, at most once per page. -/
def nicknameResults (query : String) (category : Category) (pages : List StorePage) :
    List SearchResult :=
  pages.filterMap (fun page =>
    ((extractNicknamesText page.nicknamesText).find?
        (fun nickname => decide (calculateSimilarity query nickname > 1/2))).map
      (fun nickname =>
        { pageId := page.id, category := category, name := page.title,
          matchType := .nicknameMatch,
          score := calculateSimilarity query nickname * (9/10) }))

/-- `searchByName` from `services/search.ts`.  `titlePages` is the store
response to the `Name contains query` filter; `allPages` is the unfiltered
store response used by the person-only nickname fallback. -/
def searchByName (query : String) (category : Category)
    (titlePages allPages : List StorePage) : List SearchResult :=
  let results := titleResults query category titlePages
  let results2 :=
    if category = Category.person ∧ results = [] then
      nicknameResults query category allPages
    else []
  sortByScoreDesc (results ++ results2)

/-- `searchForDuplicates`: `searchByName` filtered to scores above 0.5. -/
def searchForDuplicates (query : String) (category : Category)
    (titlePages allPages : List StorePage) : List SearchResult :=
  (searchByName query category titlePages allPages).filter
    (fun r => decide (r.score > 1/2))

/-! ## Slack service (services/slack.ts) -/

/-- The digit-prefix of a character list, for `parseInt`. -/
def takeDigits : List Char → List Char
  | [] => []
  | c :: cs => if c.isDigit then c :: takeDigits cs else []

/-- Value of a list of decimal digits. -/
def digitsToNat (ds : List Char) : Nat :=
  ds.foldl (fun acc c => acc * 10 + (c.toNat - '0'.toNat)) 0

/-- JavaScript `parseInt(s, 10)`: skip leading whitespace, read an
optional sign and then a non-empty digit run, ignoring trailing garbage;
`none` models the `NaN` result when no digit is found. -/
def jsParseInt (s : String) : Option Int :=
  let cs := dropWsLead s.toList
  let signAndRest : Int × List Char :=
    match cs with
    | '-' :: t => (-1, t)
    | '+' :: t => (1, t)
    | t => (1, t)
  let ds := takeDigits signAndRest.2
  if ds.isEmpty then none
  else some (signAndRest.1 * (digitsToNat ds : Int))

/-- `verifySignature` from `services/slack.ts`.  The HMAC-SHA256
computation (`crypto.subtle`) is abstracted as the supplied `hmacHex`
function from (secret, message) to the lowercase hex digest; `currentTime`
is `Math.floor(Date.now() / 1000)`.  The source compares
`Math.abs(currentTime - parseInt(timestamp, 10)) > 60 * 5`; when the
timestamp does not parse, that comparison is `NaN > 300`, which is false,
so the request is not rejected for staleness. -/
def verifySignature (hmacHex : String → String → String)
    (body timestamp signature signingSecret : String) (currentTime : Int) : Bool :=
  let rejectedByAge : Bool :=
    match jsParseInt timestamp with
    | some t => decide ((currentTime - t).natAbs > 60 * 5)
    | none => false
  if rejectedByAge then false
  else
    let sigBaseString := "v0:" ++ timestamp ++ ":" ++ body
    let computedSignature := "v0=" ++ hmacHex signingSecret sigBaseString
    computedSignature == signature

/-- The three button action kinds. -/
inductive ButtonAction
  | category_select
  | duplicate_resolve
  | thread_option
deriving DecidableEq, Repr

/-- `ButtonPayload`: the token embedded in an interactive button.  The
`data` object carries exactly one of the three optional fields depending
on the action. -/
structure ButtonPayload where
  action : ButtonAction
  threadTs : String
  channel : String
  dataCategory : Option Category := none
  dataResolution : Option String := none
  dataOption : Option String := none
deriving DecidableEq, Repr

/-- An interactive Block Kit message, reduced to what the agent logic
depends on: its buttons and the fallback text. -/
structure InteractiveMsg where
  buttons : List ButtonPayload
  fallback : String
deriving DecidableEq, Repr

/-- `formatConfirmation`: `Filed as <Category>: <name> | Confidence:
<pct>%` with the percentage rounded as by `Math.round`. -/
def jsRound (q : Rat) : Int :=
  (q + 1/2).floor

def formatConfirmation (category : Category) (name : String) (confidence : Rat) : String :=
  "Filed as " ++ capName category ++ ": " ++ name ++ " | Confidence: " ++
    toString (jsRound (confidence * 100)) ++ "%"

/-- `formatClarificationRequest`. -/
def formatClarificationRequest (confidence : Rat) : String :=
  "I\x27m not sure where this goes (" ++ toString (jsRound (confidence * 100)) ++
    "% confidence). Is this about a person, project, idea, or admin task?"

/-- `buildCategorySelectionBlocks`: one button per category, in the fixed
order of the `categories` array in the source. -/
def buildCategorySelectionBlocks (confidence : Rat) (threadTs channel : String) :
    InteractiveMsg :=
  { buttons :=
      ([Category.person, Category.project, Category.idea, Category.admin]).map
        (fun cat =>
          { action := .category_select, threadTs := threadTs, channel := channel,
            dataCategory := some cat }),
    fallback := formatClarificationRequest confidence }

/-- `buildDuplicateResolutionBlocks`: the update-existing / create-new
pair. -/
def buildDuplicateResolutionBlocks (category : Category) (duplicateName : String)
    (threadTs channel : String) : InteractiveMsg :=
  { buttons :=
      [{ action := .duplicate_resolve, threadTs := threadTs, channel := channel,
         dataResolution := some "update" },
       { action := .duplicate_resolve, threadTs := threadTs, channel := channel,
         dataResolution := some "new" }],
    fallback := "I found an existing " ++ catName category ++ ": \x22" ++ duplicateName ++
      "\x22. Reply \x22update\x22 or \x22new\x22." }

/-- `buildThreadOptionsBlocks`: the guidance buttons, plus the duplicate
pair when a duplicate is still pending. -/
def buildThreadOptionsBlocks (threadTs channel : String) (hasDuplicate : Bool) :
    InteractiveMsg :=
  { buttons :=
      [{ action := .thread_option, threadTs := threadTs, channel := channel,
         dataOption := some "change_category" },
       { action := .thread_option, threadTs := threadTs, channel := channel,
         dataOption := some "edit_fields" },
       { action := .thread_option, threadTs := threadTs, channel := channel,
         dataOption := some "add_context" }] ++
      (if hasDuplicate then
        [{ action := .duplicate_resolve, threadTs := threadTs, channel := channel,
           dataResolution := some "update" },
         { action := .duplicate_resolve, threadTs := threadTs, channel := channel,
           dataResolution := some "new" }]
      else []),
    fallback := "I\x27m not sure what you\x27d like me to do. You can: change category, update a field, or add info." }

/-! ## Classification oracle (services/openrouter.ts) -/

/-- The category-specific `fields` object of a classification, as the
record of the optional keys the agent ever reads (the TS value is an
untyped JSON object narrowed by casts). -/
structure FieldsObj where
  nicknames : Option (List String) := none
  context : Option String := none
  follow_ups : Option String := none
  next_action : Option String := none
  notes : Option String := none
  status : Option String := none
  one_liner : Option String := none
  due_date : Option String := none
  nameField : Option String := none
deriving DecidableEq, Repr

/-- `ClassificationResult`: the oracle output for a capture. -/
structure ClassificationResult where
  category : Category
  confidence : Rat
  name : String
  fields : FieldsObj := {}
deriving DecidableEq, Repr

/-- The six thread intents. -/
inductive IntentKind
  | correct_category
  | update_field
  | add_context
  | create_related
  | query
  | unclear
deriving DecidableEq, Repr

/-- The `details` object of a thread intent, as the record of the
optional keys each branch reads. -/
structure IntentDetails where
  newCategory : Option Category := none
  field : Option String := none
  value : Option String := none
  context : Option String := none
  category : Option Category := none
  name : Option String := none
  fields : Option FieldsObj := none
  question : Option String := none
deriving DecidableEq, Repr

/-- `ThreadIntent`: the oracle output for a thread reply. -/
structure ThreadIntent where
  intent : IntentKind
  details : IntentDetails := {}
  confidence : Rat
deriving DecidableEq, Repr

/-- The body of a successful OpenRouter HTTP response to the
thread-intent call, after the content/reasoning extraction: either no
content at all, content that `JSON.parse` rejects, or a parsed JSON
object carrying an optional `intent` string (JS truthiness of the empty
string coincides with failing the valid-intent check below), a `details`
object and a confidence. -/
inductive OracleContent
  | missing
  | unparseable (raw : String)
  | parsed (intentStr : Option String) (details : IntentDetails) (confidence : Rat)
deriving DecidableEq, Repr

/-- The valid intent strings checked by `detectThreadIntent`. -/
def validThreadIntents : List String :=
  ["correct_category", "update_field", "add_context", "create_related", "query", "unclear"]

/-- Map a valid intent string to its kind. -/
def intentKindOf (s : String) : IntentKind :=
  if s = "correct_category" then .correct_category
  else if s = "update_field" then .update_field
  else if s = "add_context" then .add_context
  else if s = "create_related" then .create_related
  else if s = "query" then .query
  else .unclear

/-- `detectThreadIntent` from `services/openrouter.ts`, as a function of
the oracle response (`Except.error` on the left models the HTTP-level
failure path, which throws).  A missing content field throws; content
that `JSON.parse` rejects throws (nothing catches the `SyntaxError`
inside this function); a parsed object with a missing or invalid
`intent` falls back to the `unclear` intent at confidence 0.5. -/
def detectThreadIntent (resp : Except String OracleContent) : Except String ThreadIntent :=
  match resp with
  | .error e => .error e
  | .ok .missing => .error "No content in OpenRouter response"
  | .ok (.unparseable raw) => .error ("SyntaxError: unexpected token in JSON: " ++ raw)
  | .ok (.parsed intentStr details confidence) =>
    match intentStr with
    | none => .ok { intent := .unclear, details := {}, confidence := 1/2 }
    | some s =>
      if validThreadIntents.contains s then
        .ok { intent := intentKindOf s, details := details, confidence := confidence }
      else
        .ok { intent := .unclear, details := {}, confidence := 1/2 }

/-! ## Notion collections (services/notion.ts) -/

/-- The Notion databases the agent writes to: the four per-category
destination collections plus the audit inbox log. -/
inductive Collection
  | people
  | projects
  | ideas
  | adminTasks
  | inboxLog
deriving DecidableEq, Repr

/-- `getDatabaseId`: the destination collection for a category. -/
def dbFor : Category → Collection
  | .person => .people
  | .project => .projects
  | .idea => .ideas
  | .admin => .adminTasks

/-- A Notion property value as built by the agent (`title`, `rich_text`,
`select` or `date` payloads). -/
inductive PropVal
  | title (s : String)
  | richText (s : String)
  | selectName (s : String)
  | dateStart (s : String)
deriving DecidableEq, Repr

/-- JS truthiness filter on an optional string: `undefined` and the
empty string are both falsy. -/
def jsTruthy : Option String → Option String
  | some s => if s.isEmpty then none else some s
  | none => none

/-- `buildUpdateProperties` from `agent.ts`: the Name title plus the
truthy category-specific fields; `today` is
`new Date().toISOString().split('T')[0]`. -/
def buildUpdateProperties (today : String) (c : ClassificationResult) :
    List (String × PropVal) :=
  [("Name", PropVal.title c.name)] ++
  (match c.category with
   | .person =>
     (match jsTruthy c.fields.context with
      | some t => [("Context", PropVal.richText t)]
      | none => []) ++
     (match jsTruthy c.fields.follow_ups with
      | some t => [("Follow-ups", PropVal.richText t)]
      | none => []) ++
     (match c.fields.nicknames with
      | some ns =>
        if ns.length > 0 then
          [("Nicknames", PropVal.richText (String.intercalate ", " ns))]
        else []
      | none => []) ++
     [("Last Touched", PropVal.dateStart today)]
   | .project =>
     (match jsTruthy c.fields.next_action with
      | some t => [("Next Action", PropVal.richText t)]
      | none => []) ++
     (match jsTruthy c.fields.notes with
      | some t => [("Notes", PropVal.richText t)]
      | none => [])
   | .idea =>
     (match jsTruthy c.fields.one_liner with
      | some t => [("One-liner", PropVal.richText t)]
      | none => []) ++
     (match jsTruthy c.fields.notes with
      | some t => [("Notes", PropVal.richText t)]
      | none => [])
   | .admin =>
     (match jsTruthy c.fields.due_date with
      | some t => [("Due Date", PropVal.dateStart t)]
      | none => []))

/-- The per-category logical-to-Notion field name table of
`buildFieldUpdateProperties`, falling back to the raw field name. -/
def fieldMapping (category : Category) (field : String) : String :=
  match category with
  | .person =>
    if field = "name" then "Name"
    else if field = "context" then "Context"
    else if field = "follow_ups" then "Follow-ups"
    else if field = "nicknames" then "Nicknames"
    else field
  | .project =>
    if field = "name" then "Name"
    else if field = "next_action" then "Next Action"
    else if field = "notes" then "Notes"
    else if field = "status" then "Status"
    else field
  | .idea =>
    if field = "name" then "Name"
    else if field = "one_liner" then "One-liner"
    else if field = "notes" then "Notes"
    else field
  | .admin =>
    if field = "name" then "Name"
    else if field = "due_date" then "Due Date"
    else if field = "status" then "Status"
    else field

/-- `buildFieldUpdateProperties` from `agent.ts`. -/
def buildFieldUpdateProperties (field value : String) (category : Category) :
    List (String × PropVal) :=
  let notionField := fieldMapping category field
  if notionField = "Name" then [(notionField, PropVal.title value)]
  else if notionField = "Status" then [(notionField, PropVal.selectName value)]
  else if notionField = "Due Date" then [(notionField, PropVal.dateStart value)]
  else [(notionField, PropVal.richText value)]

/-! ## Agent state (types.ts / agent.ts) -/

/-- Message author role in the per-thread history. -/
inductive Role
  | user
  | assistant
deriving DecidableEq, Repr

/-- One entry of `ThreadContext.messages`. -/
structure ThreadMessage where
  role : Role
  content : String
  ts : String
deriving DecidableEq, Repr

/-- `ThreadContext.potentialDuplicate`. -/
structure PotentialDuplicate where
  pageId : String
  name : String
  category : Category
  score : Rat
deriving DecidableEq, Repr

/-- `ThreadContext`: per-thread conversational state. -/
structure ThreadContext where
  originalMessage : String
  classification : ClassificationResult
  notionPageId : Option String := none
  potentialDuplicate : Option PotentialDuplicate := none
  messages : List ThreadMessage := []
  createdAt : String
deriving DecidableEq, Repr

/-- `AgentState`: the durable thread-context map, as an association list
keyed by the thread root timestamp. -/
structure AgentState where
  threadContexts : List (String × ThreadContext)
deriving DecidableEq, Repr

/-- Read `this.state.threadContexts[key]`. -/
def getContext (st : AgentState) (key : String) : Option ThreadContext :=
  (st.threadContexts.find? (fun p => p.1 == key)).map (fun p => p.2)

/-- Write `{...this.state.threadContexts, [key]: ctx}` (replace any
existing binding for `key`). -/
def setContext (st : AgentState) (key : String) (ctx : ThreadContext) : AgentState :=
  ⟨(st.threadContexts.filter (fun p => p.1 != key)) ++ [(key, ctx)]⟩

/-- One outbound call performed by the agent, in program order.  The
record-creation and page-update effects are only recorded for calls that
succeed or, for `updatePage`, at least reach the store (the attempt gets
recorded before the environment decides whether it throws). -/
inductive Effect
  | reaction (channel ts emoji : String)
  | createRec (collection : Collection) (id : String)
  | updatePage (pageId : String) (props : List (String × PropVal))
  | postText (channel text : String) (threadTs : Option String)
  | postBlocks (channel : String) (msg : InteractiveMsg) (threadTs : Option String)
  | intentCall
  | queryFlow (question channel : String) (threadTs : Option String)
deriving DecidableEq, Repr

/-- The record-creation effects aimed at a destination collection (the
audit inbox log is not a destination store). -/
def destCreates (effects : List Effect) : List Effect :=
  effects.filter (fun e =>
    match e with
    | .createRec col _ => col != Collection.inboxLog
    | _ => false)

/-- `CONFIDENCE_THRESHOLD` from `prompts.ts`. -/
def CONFIDENCE_THRESHOLD : Rat := 3/5

/-! ## Capture path (agent.ts processNewMessage) -/

/-- The inbound message being processed. -/
structure MessageInfo where
  channel : String
  ts : String
  text : String
deriving DecidableEq, Repr

/-- Environment for one capture: the outcome of each fallible external
call `processNewMessage` may make, plus the wall-clock strings. -/
structure CaptureEnv where
  classifyRes : Except String ClassificationResult
  inboxRes : Except String String
  searchRes : Except String (List SearchResult)
  createRes : Collection → Except String String
  now : String
  today : String

/-- `fileToNotion`: create one record in the destination collection of
the classification category, returning the new page id and the creation
effect (an error models the Notion create call throwing). -/
def fileToNotion (createRes : Collection → Except String String)
    (c : ClassificationResult) : Except String (String × Effect) :=
  let collection := dbFor c.category
  match createRes collection with
  | .error e => .error e
  | .ok id => .ok (id, .createRec collection id)

/-- The in-channel error notification of the catch block of
`processNewMessage`. -/
def captureErrText (e : String) : String :=
  "Error processing message: " ++ e

/-- The confident, no-strong-duplicate tail of `processNewMessage`: file
to Notion, optionally react with 100, post the confirmation (with the
weak-duplicate note when any duplicates were returned), store the
context. -/
def captureFileBranch (env : CaptureEnv) (st : AgentState) (msg : MessageInfo)
    (c : ClassificationResult) (duplicates : List SearchResult)
    (effAcc : List Effect) : AgentState × List Effect :=
  match fileToNotion env.createRes c with
  | .error e => (st, effAcc ++ [.postText msg.channel (captureErrText e) (some msg.ts)])
  | .ok (pageId, createEff) =>
    let effAcc := effAcc ++ [createEff] ++
      (if c.confidence = 1 then [Effect.reaction msg.channel msg.ts "100"] else [])
    let confirmationMsg :=
      formatConfirmation c.category c.name c.confidence ++
      (if duplicates.length > 0 then
        "\n(Note: Similar entries exist: " ++
          String.intercalate ", " (duplicates.map (fun d => d.name)) ++ ")"
      else "")
    let ctx : ThreadContext :=
      { originalMessage := msg.text, classification := c, notionPageId := some pageId,
        messages := [], createdAt := env.now }
    (setContext st msg.ts ctx,
     effAcc ++ [.postText msg.channel confirmationMsg (some msg.ts)])

/-- `processNewMessage` from `agent.ts`: react, classify, write the audit
log, gate on confidence, gate on a strong duplicate, otherwise file and
confirm.  Any throw from the oracle or a store call is caught by the
surrounding catch, which posts an in-channel error and leaves the state
untouched.

In the low-confidence and strong-duplicate branches the source
destructures the block-builder result into `blocks` and `text`,
shadowing the outer `const text = message.text`; `originalMessage: text`
in those two branches therefore stores the Block Kit fallback string of
the prompt just built, not the captured message.  The model reproduces
that shadowing by storing `blocks.fallback` there. -/
def processNewMessage (env : CaptureEnv) (st : AgentState) (msg : MessageInfo) :
    AgentState × List Effect :=
  let e0 : List Effect := [.reaction msg.channel msg.ts "white_check_mark"]
  match env.classifyRes with
  | .error e => (st, e0 ++ [.postText msg.channel (captureErrText e) (some msg.ts)])
  | .ok c =>
    match env.inboxRes with
    | .error e => (st, e0 ++ [.postText msg.channel (captureErrText e) (some msg.ts)])
    | .ok inboxId =>
      let e1 := e0 ++ [Effect.createRec .inboxLog inboxId]
      if c.confidence < CONFIDENCE_THRESHOLD then
        let blocks := buildCategorySelectionBlocks c.confidence msg.ts msg.channel
        let ctx : ThreadContext :=
          { originalMessage := blocks.fallback, classification := c, messages := [],
            createdAt := env.now }
        (setContext st msg.ts ctx,
         e1 ++ [.postBlocks msg.channel blocks (some msg.ts)])
      else
        match env.searchRes with
        | .error e => (st, e1 ++ [.postText msg.channel (captureErrText e) (some msg.ts)])
        | .ok duplicates =>
          match duplicates.head? with
          | some d =>
            if d.score > 4/5 then
              let blocks := buildDuplicateResolutionBlocks c.category d.name msg.ts msg.channel
              let ctx : ThreadContext :=
                { originalMessage := blocks.fallback, classification := c,
                  potentialDuplicate := some
                    { pageId := d.pageId, name := d.name, category := d.category,
                      score := d.score },
                  messages := [], createdAt := env.now }
              (setContext st msg.ts ctx,
               e1 ++ [.postBlocks msg.channel blocks (some msg.ts)])
            else captureFileBranch env st msg c duplicates e1
          | none => captureFileBranch env st msg c duplicates e1

/-! ## Thread-reply path (agent.ts handleThreadReply) -/

/-- Environment for one thread reply: the outcome of each fallible
external call, plus the wall-clock strings (`nowTs` is
`Date.now().toString()` used for assistant history entries). -/
structure ReplyEnv where
  intentRes : Except String ThreadIntent
  updateRes : Except String Unit
  createRes : Collection → Except String String
  nowTs : String
  today : String

/-- The no-context reply. -/
def noContextMsg : String :=
  "I don\x27t have context for this thread. Try posting a new message."

/-- The catch-block reply of the intent-detection section. -/
def troubleMsg : String :=
  "I had trouble understanding that. Could you try rephrasing?"

/-- The update-existing confirmation. -/
def updatedExistingMsg (dup : PotentialDuplicate) : String :=
  "Updated existing " ++ catName dup.category ++ ": \x22" ++ dup.name ++ "\x22"

/-- The category-move confirmation. -/
def movedMsg (newCategory : Category) (name : String) : String :=
  "Got it. Moved to " ++ capName newCategory ++ ": " ++ name

/-- The same-category report. -/
def alreadyMsg (category : Category) : String :=
  "Already categorized as " ++ catName category ++ "."

/-- The field-update confirmation. -/
def updatedFieldMsg (field value : String) : String :=
  "Updated " ++ field ++ " to \x22" ++ value ++ "\x22"

/-- The not-yet-filed soft-fail for a field update. -/
def cannotUpdateFieldMsg : String :=
  "I couldn\x27t update the field. The entry may not have been filed yet."

/-- The add-context confirmation. -/
def addedContextMsg (t : String) : String :=
  "Added context: \x22" ++ t ++ "\x22"

/-- The not-yet-filed soft-fail for add-context. -/
def cannotAddContextMsg : String :=
  "I couldn\x27t add context. The entry may not have been filed yet."

/-- The create-related confirmation. -/
def createdRelatedMsg (category : Category) (name : String) : String :=
  "Created related " ++ catName category ++ ": \x22" ++ name ++ "\x22"

/-- The missing-details soft-fail for create-related. -/
def cannotCreateRelatedMsg : String :=
  "I couldn\x27t create a related entry. Please provide more details."

/-- The keyword quick path of `handleThreadReply`: on a pending
duplicate, a lowercased-trimmed reply that equals or contains `update`
resolves to update-existing, else one that equals or contains `new`
resolves to create-new. -/
def quickResolution (replyText : String) : Option Bool :=
  let lowerText := strTrim (strToLower replyText)
  if lowerText = "update" || jsIncludes lowerText "update" then some true
  else if lowerText = "new" || jsIncludes lowerText "new" then some false
  else none

/-- `handleDuplicateUpdate`: patch the pending duplicate page with the
classification fields, confirm, set `notionPageId` to the existing page
and clear `potentialDuplicate`.  A throw from `updatePage` propagates out
of the quick path uncaught: the attempt is recorded, nothing later
runs. -/
def handleDuplicateUpdate (env : ReplyEnv) (st : AgentState) (context : ThreadContext)
    (threadTs channel : String) (messages : List ThreadMessage) :
    AgentState × List Effect :=
  match context.potentialDuplicate with
  | none => (st, [])
  | some dup =>
    let props := buildUpdateProperties env.today context.classification
    match env.updateRes with
    | .error _ => (st, [.updatePage dup.pageId props])
    | .ok _ =>
      let botResponse := updatedExistingMsg dup
      (setContext st threadTs
        { context with
          notionPageId := some dup.pageId,
          potentialDuplicate := none,
          messages := messages ++ [{ role := .assistant, content := botResponse, ts := env.nowTs }] },
       [.updatePage dup.pageId props, .postText channel botResponse (some threadTs)])

/-- `handleDuplicateNew`: file a fresh record, confirm, set
`notionPageId` to the new page and clear `potentialDuplicate`. -/
def handleDuplicateNew (env : ReplyEnv) (st : AgentState) (context : ThreadContext)
    (threadTs channel : String) (messages : List ThreadMessage) :
    AgentState × List Effect :=
  match fileToNotion env.createRes context.classification with
  | .error _ => (st, [])
  | .ok (pageId, createEff) =>
    let botResponse :=
      formatConfirmation context.classification.category context.classification.name
        context.classification.confidence
    (setContext st threadTs
      { context with
        notionPageId := some pageId,
        potentialDuplicate := none,
        messages := messages ++ [{ role := .assistant, content := botResponse, ts := env.nowTs }] },
     [createEff, .postText channel botResponse (some threadTs)])

/-- The intent-detection section of `handleThreadReply` (everything
inside its try/catch).  A throw from the oracle, a Notion create or a
Notion update is caught and answered with `troubleMsg`, leaving the state
untouched. -/
def threadIntentPath (env : ReplyEnv) (st : AgentState) (context : ThreadContext)
    (threadTs channel replyText : String) (updatedMessages : List ThreadMessage) :
    AgentState × List Effect :=
  let callEff : List Effect := [.intentCall]
  match env.intentRes with
  | .error _ => (st, callEff ++ [.postText channel troubleMsg (some threadTs)])
  | .ok intent =>
    match intent.intent with
    | .correct_category =>
      match intent.details.newCategory with
      | some newCategory =>
        if newCategory ≠ context.classification.category then
          let updatedClassification :=
            { context.classification with category := newCategory, confidence := 19/20 }
          match fileToNotion env.createRes updatedClassification with
          | .error _ => (st, callEff ++ [.postText channel troubleMsg (some threadTs)])
          | .ok (pageId, createEff) =>
            let botResponse := movedMsg newCategory updatedClassification.name
            (setContext st threadTs
              { context with
                classification := updatedClassification,
                notionPageId := some pageId,
                messages := updatedMessages ++
                  [{ role := .assistant, content := botResponse, ts := env.nowTs }] },
             callEff ++ [createEff, .postText channel botResponse (some threadTs)])
        else
          (st, callEff ++
            [.postText channel (alreadyMsg context.classification.category) (some threadTs)])
      | none =>
        (st, callEff ++
          [.postText channel (alreadyMsg context.classification.category) (some threadTs)])
    | .update_field =>
      match jsTruthy context.notionPageId, jsTruthy intent.details.field,
            jsTruthy intent.details.value with
      | some pageId, some field, some value =>
        let props := buildFieldUpdateProperties field value context.classification.category
        (match env.updateRes with
         | .error _ =>
           (st, callEff ++ [.updatePage pageId props, .postText channel troubleMsg (some threadTs)])
         | .ok _ =>
           let botResponse := updatedFieldMsg field value
           (setContext st threadTs
             { context with
               messages := updatedMessages ++
                 [{ role := .assistant, content := botResponse, ts := env.nowTs }] },
            callEff ++ [.updatePage pageId props, .postText channel botResponse (some threadTs)]))
      | _, _, _ =>
        (st, callEff ++ [.postText channel cannotUpdateFieldMsg (some threadTs)])
    | .add_context =>
      match jsTruthy context.notionPageId, jsTruthy intent.details.context with
      | some pageId, some contextText =>
        let fieldName :=
          if context.classification.category = Category.person then "Context" else "Notes"
        let props := [(fieldName, PropVal.richText contextText)]
        (match env.updateRes with
         | .error _ =>
           (st, callEff ++ [.updatePage pageId props, .postText channel troubleMsg (some threadTs)])
         | .ok _ =>
           let botResponse := addedContextMsg contextText
           (setContext st threadTs
             { context with
               messages := updatedMessages ++
                 [{ role := .assistant, content := botResponse, ts := env.nowTs }] },
            callEff ++ [.updatePage pageId props, .postText channel botResponse (some threadTs)]))
      | _, _ =>
        (st, callEff ++ [.postText channel cannotAddContextMsg (some threadTs)])
    | .create_related =>
      match intent.details.category, jsTruthy intent.details.name with
      | some category, some name =>
        let relatedClassification : ClassificationResult :=
          { category := category, name := name, confidence := 9/10,
            fields := intent.details.fields.getD { nameField := some name } }
        (match fileToNotion env.createRes relatedClassification with
         | .error _ => (st, callEff ++ [.postText channel troubleMsg (some threadTs)])
         | .ok (_pageId, createEff) =>
           let botResponse := createdRelatedMsg category name
           (setContext st threadTs
             { context with
               messages := updatedMessages ++
                 [{ role := .assistant, content := botResponse, ts := env.nowTs }] },
            callEff ++ [createEff, .postText channel botResponse (some threadTs)]))
      | _, _ =>
        (st, callEff ++ [.postText channel cannotCreateRelatedMsg (some threadTs)])
    | .query =>
      let question := (jsTruthy intent.details.question).getD replyText
      (setContext st threadTs { context with messages := updatedMessages },
       callEff ++ [.queryFlow question channel (some threadTs)])
    | .unclear =>
      let blocks := buildThreadOptionsBlocks threadTs channel context.potentialDuplicate.isSome
      let botResponse := blocks.fallback
      (setContext st threadTs
        { context with
          messages := updatedMessages ++
            [{ role := .assistant, content := botResponse, ts := env.nowTs }] },
       callEff ++ [.postBlocks channel blocks (some threadTs)])

/-- `handleThreadReply` from `agent.ts`: look up the thread context,
append the user reply to the working history, take the keyword quick path
when a duplicate is pending, otherwise detect the intent and dispatch. -/
def handleThreadReply (env : ReplyEnv) (st : AgentState)
    (channel threadTs replyText msgTs : String) : AgentState × List Effect :=
  match getContext st threadTs with
  | none => (st, [.postText channel noContextMsg (some threadTs)])
  | some context =>
    let updatedMessages :=
      context.messages ++ [{ role := Role.user, content := replyText, ts := msgTs }]
    match context.potentialDuplicate with
    | some _ =>
      match quickResolution replyText with
      | some true => handleDuplicateUpdate env st context threadTs channel updatedMessages
      | some false => handleDuplicateNew env st context threadTs channel updatedMessages
      | none => threadIntentPath env st context threadTs channel replyText updatedMessages
    | none => threadIntentPath env st context threadTs channel replyText updatedMessages

/-- The failure modes of a capture in which the classification oracle
call or one of the store writes throws: the `classify` call fails, the
inbox-log write fails, or the destination-record creation fails (the
latter is reached only past the confidence gate, a successful duplicate
search and no strong duplicate at its head). -/
def captureOracleOrWriteThrows (env : CaptureEnv) : Prop :=
  (∃ e, env.classifyRes = .error e) ∨
  (∃ c, env.classifyRes = .ok c ∧
    ((∃ e, env.inboxRes = .error e) ∨
     (∃ inboxId, env.inboxRes = .ok inboxId ∧ CONFIDENCE_THRESHOLD ≤ c.confidence ∧
       (∃ duplicates, env.searchRes = .ok duplicates ∧
         (∀ d ∈ duplicates.head?.toList, d.score ≤ 4/5) ∧
         (∃ e, env.createRes (dbFor c.category) = .error e)))))

/-! ## Concrete fixtures used by witness and counterexample theorems -/

/-- A stand-in keyed hash for instantiating `verifySignature`. -/
def toyHmacHex (secret message : String) : String :=
  secret ++ "/" ++ message

/-- A high-confidence person classification. -/
def classificationW : ClassificationResult :=
  { category := .person, confidence := 9/10, name := "Sarah" }

/-- The same classification below the confidence threshold. -/
def classificationLowW : ClassificationResult :=
  { classificationW with confidence := 2/5 }

/-- The empty agent state. -/
def stEmpty : AgentState := ⟨[]⟩

/-- A concrete inbound message. -/
def msgW : MessageInfo := { channel := "C1", ts := "111.222", text := "Met Sarah today" }

/-- Capture environment in which every external call succeeds and the
duplicate search comes back empty. -/
def envOkW : CaptureEnv :=
  { classifyRes := .ok classificationW, inboxRes := .ok "inbox1",
    searchRes := .ok [], createRes := fun _ => .ok "page1",
    now := "2026-10-12T00:00:00Z", today := "2026-10-12" }

/-- The same environment with the low-confidence classification. -/
def envLowW : CaptureEnv :=
  { envOkW with classifyRes := .ok classificationLowW }

/-- Capture environment in which the classification call throws. -/
def envThrowW : CaptureEnv :=
  { envOkW with classifyRes := .error "OpenRouter API error: 500" }

/-- A filed thread context with no pending duplicate. -/
def ctxFiledW : ThreadContext :=
  { originalMessage := "Met Sarah today", classification := classificationW,
    notionPageId := some "page1", messages := [], createdAt := "2026-10-12T00:00:00Z" }

/-- A thread context with a pending duplicate and no filed page. -/
def ctxDupW : ThreadContext :=
  { originalMessage := "Met Sarah today", classification := classificationW,
    potentialDuplicate := some
      { pageId := "dup1", name := "Sarah Connor", category := .person, score := 5/6 },
    messages := [], createdAt := "2026-10-12T00:00:00Z" }

/-- State holding `ctxFiledW` under thread `111.222`. -/
def stFiledW : AgentState := ⟨[("111.222", ctxFiledW)]⟩

/-- State holding `ctxDupW` under thread `111.222`. -/
def stDupW : AgentState := ⟨[("111.222", ctxDupW)]⟩

/-- A same-category correction intent. -/
def intentSameCatW : ThreadIntent :=
  { intent := .correct_category, details := { newCategory := some .person },
    confidence := 9/10 }

/-- A field-update intent. -/
def intentFieldW : ThreadIntent :=
  { intent := .update_field,
    details := { field := some "context", value := some "works at Cyberdyne" },
    confidence := 9/10 }

/-- Reply environment in which every external call succeeds and the
oracle reports a same-category correction. -/
def envReplySameCatW : ReplyEnv :=
  { intentRes := .ok intentSameCatW, updateRes := .ok (),
    createRes := fun _ => .ok "page2", nowTs := "1760227200000",
    today := "2026-10-12" }

/-- Reply environment in which the oracle reports a field update. -/
def envReplyFieldW : ReplyEnv :=
  { envReplySameCatW with intentRes := .ok intentFieldW }

/-- A store page whose only near match for the query sits in its
nicknames. -/
def pageNickW : StorePage :=
  { id := "p1", title := "Sarah Connor", nicknamesText := "Saz, S" }

/-!
# Theorems
-/

/-- **C3, counterexample.**  The claim computes the word-overlap stage as
the fraction of query words that match, scaled by 0.8: for the query
`"alpha qq"` (two words, one matching) against `"xalpha yy zz"` that
predicts `(1/2) * (4/5) = 2/5`.  The code divides by the larger word
count (three), producing `(1/3) * (4/5) = 4/15 ≠ 2/5`. -/
theorem calculateSimilarity_query_fraction_counterexample :
    calculateSimilarity "alpha qq" "xalpha yy zz" = 4/15 ∧
    ((1 : Rat)/2) * (4/5) = 2/5 ∧
    (4 : Rat)/15 ≠ 2/5 := by
  refine ⟨?_, by norm_num, by norm_num⟩
  have h : calculateSimilarity "alpha qq" "xalpha yy zz" =
      ((1 : Nat) : Rat) / ((3 : Nat) : Rat) * (4/5) := rfl
  rw [h]
  norm_num

/-- **C3, amended.**  `calculateSimilarity` implements the claimed
scoring with the word-overlap denominator amended to the larger of the
two word counts: it agrees everywhere with `specSimilarity` (the amended
wording), and on the claim's concrete examples it returns exactly the
length ratio `len("Sarah")/len("Sarah Connor")` and exactly 1. -/
theorem calculateSimilarity_matches_amended_spec :
    (∀ s1 s2 : String, calculateSimilarity s1 s2 = specSimilarity s1 s2) ∧
    calculateSimilarity "Sarah" "Sarah Connor" =
      (("Sarah".length : Nat) : Rat) / (("Sarah Connor".length : Nat) : Rat) ∧
    calculateSimilarity "Sarah" "Sarah" = 1 := by
  refine ⟨fun s1 s2 => ?_, rfl, rfl⟩
  simp only [calculateSimilarity, specSimilarity]
  split
  · rfl
  · split
    · rfl
    · rcases Nat.eq_zero_or_pos ((splitWs (strToLower s1)).filter
        (fun w => (splitWs (strToLower s2)).any
          (fun w2 => jsIncludes w2 w || jsIncludes w w2))).length with h | h
      · simp [h]
      · simp [h, Nat.pos_iff_ne_zero.mp h]

/-- **C10.**  When the `x-slack-request-timestamp` header does not parse
as a number (`parseInt` yields `NaN`, modelled as `jsParseInt _ = none`),
the 5-minute freshness check is bypassed — the verdict does not depend on
the current time — and `verifySignature` returns `true` exactly when the
provided signature equals `"v0=" ++ HMAC(secret, "v0:" ++ timestamp ++
":" ++ body)` over the literal timestamp string. -/
theorem verifySignature_nonNumeric_timestamp
    (hmacHex : String → String → String)
    (body timestamp signature signingSecret : String) (t1 t2 : Int)
    (h : jsParseInt timestamp = none) :
    verifySignature hmacHex body timestamp signature signingSecret t1 =
      verifySignature hmacHex body timestamp signature signingSecret t2 ∧
    (verifySignature hmacHex body timestamp signature signingSecret t1 = true ↔
      signature = "v0=" ++ hmacHex signingSecret ("v0:" ++ timestamp ++ ":" ++ body)) := by
  unfold verifySignature
  rw [h]
  refine ⟨rfl, ?_⟩
  show (("v0=" ++ hmacHex signingSecret ("v0:" ++ timestamp ++ ":" ++ body)) ==
    signature) = true ↔ _
  rw [beq_iff_eq]
  exact eq_comm

/-- **C10, witness.**  `"abc"` is a non-numeric timestamp, and with a
concrete stand-in HMAC the matching signature is accepted at an arbitrary
current time. -/
theorem verifySignature_nonNumeric_timestamp_witness :
    jsParseInt "abc" = none ∧
    verifySignature toyHmacHex "body" "abc"
      ("v0=" ++ toyHmacHex "secret" ("v0:" ++ "abc" ++ ":" ++ "body"))
      "secret" 1700000000 = true :=
  ⟨rfl,
   (verifySignature_nonNumeric_timestamp toyHmacHex "body" "abc"
      ("v0=" ++ toyHmacHex "secret" ("v0:" ++ "abc" ++ ":" ++ "body"))
      "secret" 1700000000 1700000000 rfl).2.mpr rfl⟩

/-- **C9, counterexample.**  A thread-intent oracle response whose body
is not parseable JSON makes `detectThreadIntent` throw (the `JSON.parse`
`SyntaxError` propagates): it does not return the `unclear` fallback. -/
theorem detectThreadIntent_unparseable_throws :
    detectThreadIntent (.ok (.unparseable "not json")) =
      .error ("SyntaxError: unexpected token in JSON: " ++ "not json") ∧
    detectThreadIntent (.ok (.unparseable "not json")) ≠
      .ok { intent := .unclear, details := {}, confidence := 1/2 } :=
  ⟨rfl, by simp [detectThreadIntent]⟩

/-- **C9, amended.**  `detectThreadIntent` falls back to the `unclear`
intent only for responses that parse as JSON but carry a missing or
invalid `intent` discriminant; an unparseable body, a missing content
field and an HTTP-level failure all propagate as errors, and a valid
discriminant is passed through. -/
theorem detectThreadIntent_fallback_only_when_parsed :
    (∀ (s : String) (details : IntentDetails) (confidence : Rat),
      validThreadIntents.contains s = false →
      detectThreadIntent (.ok (.parsed (some s) details confidence)) =
        .ok { intent := .unclear, details := {}, confidence := 1/2 }) ∧
    (∀ (details : IntentDetails) (confidence : Rat),
      detectThreadIntent (.ok (.parsed none details confidence)) =
        .ok { intent := .unclear, details := {}, confidence := 1/2 }) ∧
    (∀ raw : String, detectThreadIntent (.ok (.unparseable raw)) =
      .error ("SyntaxError: unexpected token in JSON: " ++ raw)) ∧
    detectThreadIntent (.ok .missing) = .error "No content in OpenRouter response" ∧
    (∀ e : String, detectThreadIntent (.error e) = .error e) ∧
    (∀ (s : String) (details : IntentDetails) (confidence : Rat),
      validThreadIntents.contains s = true →
      detectThreadIntent (.ok (.parsed (some s) details confidence)) =
        .ok { intent := intentKindOf s, details := details, confidence := confidence }) := by
  refine ⟨fun s details confidence hs => ?_, fun _ _ => rfl, fun _ => rfl, rfl,
    fun _ => rfl, fun s details confidence hs => ?_⟩
  · dsimp only [detectThreadIntent]
    rw [hs]
    rfl
  · dsimp only [detectThreadIntent]
    rw [hs]
    rfl

/-- **C9, witness.**  The string `"bogus"` is not a valid intent, and the
fallback applies to it; `"query"` is valid and passes through. -/
theorem detectThreadIntent_fallback_witness :
    validThreadIntents.contains "bogus" = false ∧
    detectThreadIntent (.ok (.parsed (some "bogus") {} (7/10))) =
      .ok { intent := .unclear, details := {}, confidence := 1/2 } :=
  ⟨rfl, detectThreadIntent_fallback_only_when_parsed.1 "bogus" {} (7/10) rfl⟩

/-! ## List helper lemmas for the search pipeline -/

theorem insertByScore_perm (r : SearchResult) (l : List SearchResult) :
    List.Perm (insertByScore r l) (r :: l) := by
  induction l with
  | nil => exact List.Perm.refl _
  | cons x xs ih =>
    unfold insertByScore
    split
    · exact List.Perm.refl _
    · exact (ih.cons x).trans (List.Perm.swap r x xs)

theorem sortByScoreDesc_perm (l : List SearchResult) :
    List.Perm (sortByScoreDesc l) l := by
  induction l with
  | nil => exact List.Perm.refl _
  | cons x xs ih =>
    exact (insertByScore_perm x (sortByScoreDesc xs)).trans (ih.cons x)

theorem mem_sortByScoreDesc {a : SearchResult} {l : List SearchResult} :
    a ∈ sortByScoreDesc l ↔ a ∈ l :=
  (sortByScoreDesc_perm l).mem_iff

/-- `searchByName` with its let-bindings unfolded. -/
theorem searchByName_eq (query : String) (category : Category)
    (titlePages allPages : List StorePage) :
    searchByName query category titlePages allPages =
    sortByScoreDesc (titleResults query category titlePages ++
      (if category = Category.person ∧ titleResults query category titlePages = []
       then nicknameResults query category allPages else [])) := rfl

theorem titleResults_matchType (query : String) (category : Category)
    (pages : List StorePage) :
    ∀ r ∈ titleResults query category pages, r.matchType ≠ MatchType.nicknameMatch := by
  intro r hr
  rw [titleResults, List.mem_filterMap] at hr
  obtain ⟨page, _, heq⟩ := hr
  dsimp only at heq
  split at heq
  · cases heq
    dsimp only
    split <;> simp
  · cases heq

theorem titleResults_ne_nil_of_pos {query : String} {category : Category}
    {pages : List StorePage}
    (hq : ∃ p ∈ pages, calculateSimilarity query p.title > 0) :
    titleResults query category pages ≠ [] := by
  obtain ⟨p, hp, hpos⟩ := hq
  intro hnil
  have hmem : (⟨p.id, category, p.title,
      if calculateSimilarity query p.title = 1 then .exactMatch else .partialMatch,
      calculateSimilarity query p.title⟩ : SearchResult) ∈
      titleResults query category pages := by
    rw [titleResults, List.mem_filterMap]
    exact ⟨p, hp, by simp [hpos]⟩
  rw [hnil] at hmem
  cases hmem

theorem nicknameResults_mem {query : String} {category : Category}
    {pages : List StorePage} {r : SearchResult}
    (hr : r ∈ nicknameResults query category pages) :
    ∃ p ∈ pages, r.pageId = p.id ∧
      ∃ nick ∈ extractNicknamesText p.nicknamesText,
        calculateSimilarity query nick > 1/2 ∧
        r.score = calculateSimilarity query nick * (9/10) := by
  rw [nicknameResults, List.mem_filterMap] at hr
  obtain ⟨page, hpage, heq⟩ := hr
  obtain ⟨nick, hfind, hmk⟩ := Option.map_eq_some'.mp heq
  refine ⟨page, hpage, ?_, nick, List.mem_of_find?_eq_some hfind, ?_, ?_⟩
  · rw [← hmk]
  · exact of_decide_eq_true (List.find?_some (p := fun nickname =>
      decide (calculateSimilarity query nickname > 1/2)) hfind)
  · rw [← hmk]

/-- **C8.**  The nickname fallback of `searchByName`: it fires only for
the person category (no other category ever yields nickname-typed
results), only when no title result has positive score, every
nickname-typed result scores exactly 0.9 times the similarity of one of
the record's nicknames (itself above 0.5), and — given distinct store
page ids — at most one nickname match is taken per candidate record. -/
theorem searchByName_nickname_pass
    (query : String) (titlePages allPages : List StorePage) :
    (∀ category, category ≠ Category.person →
      ∀ r ∈ searchByName query category titlePages allPages,
        r.matchType ≠ MatchType.nicknameMatch) ∧
    ((∃ p ∈ titlePages, calculateSimilarity query p.title > 0) →
      ∀ r ∈ searchByName query Category.person titlePages allPages,
        r.matchType ≠ MatchType.nicknameMatch) ∧
    (∀ r ∈ searchByName query Category.person titlePages allPages,
      r.matchType = MatchType.nicknameMatch →
      ∃ p ∈ allPages, r.pageId = p.id ∧
        ∃ nick ∈ extractNicknamesText p.nicknamesText,
          calculateSimilarity query nick > 1/2 ∧
          r.score = calculateSimilarity query nick * (9/10)) ∧
    (allPages.Pairwise (fun a b => a.id ≠ b.id) →
      (searchByName query Category.person titlePages allPages).Pairwise
        (fun a b => a.matchType = MatchType.nicknameMatch →
          b.matchType = MatchType.nicknameMatch → a.pageId ≠ b.pageId)) := by
  refine ⟨?_, ?_, ?_, ?_⟩
  · intro category hcat r hr
    rw [searchByName_eq, mem_sortByScoreDesc, List.mem_append] at hr
    rcases hr with hr | hr
    · exact titleResults_matchType query category titlePages r hr
    · rw [if_neg (fun hand => hcat hand.1)] at hr
      cases hr
  · intro hpos r hr
    rw [searchByName_eq, mem_sortByScoreDesc, List.mem_append] at hr
    rcases hr with hr | hr
    · exact titleResults_matchType query Category.person titlePages r hr
    · rw [if_neg (fun hand => titleResults_ne_nil_of_pos hpos hand.2)] at hr
      cases hr
  · intro r hr hnick
    rw [searchByName_eq, mem_sortByScoreDesc, List.mem_append] at hr
    rcases hr with hr | hr
    · exact absurd hnick (titleResults_matchType query Category.person titlePages r hr)
    · by_cases hc : Category.person = Category.person ∧
        titleResults query Category.person titlePages = []
      · rw [if_pos hc] at hr
        exact nicknameResults_mem hr
      · rw [if_neg hc] at hr
        cases hr
  · intro hids
    have hsymm : ∀ {x y : SearchResult},
        (x.matchType = MatchType.nicknameMatch → y.matchType = MatchType.nicknameMatch →
          x.pageId ≠ y.pageId) →
        (y.matchType = MatchType.nicknameMatch → x.matchType = MatchType.nicknameMatch →
          y.pageId ≠ x.pageId) :=
      fun hxy hy hx => (hxy hx hy).symm
    rw [searchByName_eq,
      List.Perm.pairwise_iff hsymm (sortByScoreDesc_perm _),
      List.pairwise_append]
    refine ⟨?_, ?_, ?_⟩
    · exact List.pairwise_of_forall_mem_list (fun a ha b _ hna _ =>
        absurd hna (titleResults_matchType query Category.person titlePages a ha))
    · split
      · rw [nicknameResults, List.pairwise_filterMap]
        refine hids.imp (fun {p p2} hne => ?_)
        intro b hb b2 hb2 _ _
        have hbid : b.pageId = p.id := by
          obtain ⟨nick, _, hmk⟩ := Option.map_eq_some'.mp (Option.mem_def.mp hb)
          rw [← hmk]
        have hbid2 : b2.pageId = p2.id := by
          obtain ⟨nick, _, hmk⟩ := Option.map_eq_some'.mp (Option.mem_def.mp hb2)
          rw [← hmk]
        rw [hbid, hbid2]
        exact hne
      · exact List.Pairwise.nil
    · intro a ha b _ hna _
      exact absurd hna (titleResults_matchType query Category.person titlePages a ha)

/-- **C8, witness.**  Applying the person-only clause at a concrete
non-person category: no nickname-typed result appears. -/
theorem searchByName_nickname_pass_witness :
    Category.project ≠ Category.person ∧
    (searchByName "Saz" Category.project [pageNickW] [pageNickW]).all
      (fun r => r.matchType != MatchType.nicknameMatch) = true := by
  refine ⟨by decide, ?_⟩
  rw [List.all_eq_true]
  intro r hr
  have h := (searchByName_nickname_pass "Saz" [pageNickW] [pageNickW]).1
    Category.project (by decide) r hr
  simpa using h

/-! ## State-map helper lemmas -/

theorem find?_filter_append_self (l : List (String × ThreadContext)) (key : String)
    (ctx : ThreadContext) :
    ((l.filter (fun p => p.1 != key)) ++ [(key, ctx)]).find? (fun p => p.1 == key) =
      some (key, ctx) := by
  induction l with
  | nil => simp [List.find?]
  | cons p t ih =>
    by_cases h : p.1 = key
    · simp [List.filter_cons, h, ih]
    · simp [List.filter_cons, h, List.find?_cons, ih]

theorem getContext_setContext_self (st : AgentState) (key : String) (ctx : ThreadContext) :
    getContext (setContext st key ctx) key = some ctx := by
  unfold getContext setContext
  dsimp only
  rw [find?_filter_append_self]
  rfl

theorem fileToNotion_ok {createRes : Collection → Except String String}
    {c : ClassificationResult} {pageId : String}
    (h : createRes (dbFor c.category) = .ok pageId) :
    fileToNotion createRes c = .ok (pageId, .createRec (dbFor c.category) pageId) := by
  unfold fileToNotion
  dsimp only
  rw [h]

theorem fileToNotion_err {createRes : Collection → Except String String}
    {c : ClassificationResult} {e : String}
    (h : createRes (dbFor c.category) = .error e) :
    fileToNotion createRes c = .error e := by
  unfold fileToNotion
  dsimp only
  rw [h]

/-! ## Capture-path theorems -/

/-- **C1.**  A capture whose classification clears the confidence
threshold and whose duplicate search returns no result scoring above 0.8
creates exactly one record in a destination collection — the one
determined by the classification category — and the `ThreadContext`
stored under the message timestamp carries that record's id as its
`notionPageId`. -/
theorem processNewMessage_confident_files_once
    (env : CaptureEnv) (st : AgentState) (msg : MessageInfo)
    (c : ClassificationResult) (duplicates : List SearchResult) (inboxId pageId : String)
    (hclassify : env.classifyRes = .ok c)
    (hconf : CONFIDENCE_THRESHOLD ≤ c.confidence)
    (hinbox : env.inboxRes = .ok inboxId)
    (hsearch : env.searchRes = .ok duplicates)
    (hweak : ∀ d ∈ duplicates, d.score ≤ 4/5)
    (hcreate : env.createRes (dbFor c.category) = .ok pageId) :
    destCreates (processNewMessage env st msg).2 =
      [Effect.createRec (dbFor c.category) pageId] ∧
    getContext (processNewMessage env st msg).1 msg.ts =
      some { originalMessage := msg.text, classification := c,
             notionPageId := some pageId, potentialDuplicate := none,
             messages := [], createdAt := env.now } := by
  have hbranch : processNewMessage env st msg =
      captureFileBranch env st msg c duplicates
        [Effect.reaction msg.channel msg.ts "white_check_mark",
         Effect.createRec .inboxLog inboxId] := by
    unfold processNewMessage
    rw [hclassify, hinbox]
    dsimp only
    rw [if_neg (not_lt.mpr hconf), hsearch]
    dsimp only
    cases duplicates with
    | nil => rfl
    | cons d ds =>
      have hd : ¬ (d.score > 4/5) := not_lt.mpr (hweak d (List.mem_cons_self d ds))
      dsimp only [List.head?]
      rw [if_neg hd]
      rfl
  rw [hbranch]
  unfold captureFileBranch
  rw [fileToNotion_ok hcreate]
  dsimp only
  constructor
  · cases hcat : c.category <;> simp [destCreates, dbFor, hcat]
  · exact getContext_setContext_self st msg.ts _

/-- **C1, witness.**  Filing the concrete high-confidence capture with an
empty duplicate search: one person record, and the stored context points
at it. -/
theorem processNewMessage_confident_files_once_witness :
    CONFIDENCE_THRESHOLD ≤ classificationW.confidence ∧
    destCreates (processNewMessage envOkW stEmpty msgW).2 =
      [Effect.createRec (dbFor classificationW.category) "page1"] ∧
    getContext (processNewMessage envOkW stEmpty msgW).1 msgW.ts =
      some { originalMessage := msgW.text, classification := classificationW,
             notionPageId := some "page1", potentialDuplicate := none,
             messages := [], createdAt := envOkW.now } := by
  have hconf : CONFIDENCE_THRESHOLD ≤ classificationW.confidence := by
    norm_num [CONFIDENCE_THRESHOLD, classificationW]
  have h := processNewMessage_confident_files_once envOkW stEmpty msgW
    classificationW [] "inbox1" "page1" rfl hconf rfl rfl (by simp) rfl
  exact ⟨hconf, h.1, h.2⟩

/-- **C2.**  A capture whose classification falls below the fixed 0.6
threshold writes to no destination store; a `ThreadContext` is created
holding the original classification with no `notionPageId`, and the last
action is posting the 4-option category-selection prompt (one button per
category), after which processing returns.  (Because the source's
destructured `text` shadows the captured message in this branch, the
stored `originalMessage` is the prompt's fallback string, which the claim
leaves unconstrained.) -/
theorem processNewMessage_low_confidence_prompts
    (env : CaptureEnv) (st : AgentState) (msg : MessageInfo)
    (c : ClassificationResult) (inboxId : String)
    (hclassify : env.classifyRes = .ok c)
    (hconf : c.confidence < CONFIDENCE_THRESHOLD)
    (hinbox : env.inboxRes = .ok inboxId) :
    (processNewMessage env st msg).2 =
      [Effect.reaction msg.channel msg.ts "white_check_mark",
       Effect.createRec .inboxLog inboxId,
       Effect.postBlocks msg.channel
         (buildCategorySelectionBlocks c.confidence msg.ts msg.channel) (some msg.ts)] ∧
    destCreates (processNewMessage env st msg).2 = [] ∧
    getContext (processNewMessage env st msg).1 msg.ts =
      some { originalMessage :=
               (buildCategorySelectionBlocks c.confidence msg.ts msg.channel).fallback,
             classification := c, notionPageId := none,
             potentialDuplicate := none, messages := [], createdAt := env.now } ∧
    (buildCategorySelectionBlocks c.confidence msg.ts msg.channel).buttons.map
        (fun b => (b.action, b.dataCategory)) =
      [(ButtonAction.category_select, some Category.person),
       (ButtonAction.category_select, some Category.project),
       (ButtonAction.category_select, some Category.idea),
       (ButtonAction.category_select, some Category.admin)] := by
  unfold processNewMessage
  rw [hclassify, hinbox]
  dsimp only
  rw [if_pos hconf]
  exact ⟨rfl, rfl, getContext_setContext_self st msg.ts _, rfl⟩

/-- **C2, witness.**  The concrete 0.4-confidence capture: no destination
write, context stored without a page id, 4-button prompt posted last. -/
theorem processNewMessage_low_confidence_prompts_witness :
    classificationLowW.confidence < CONFIDENCE_THRESHOLD ∧
    destCreates (processNewMessage envLowW stEmpty msgW).2 = [] ∧
    getContext (processNewMessage envLowW stEmpty msgW).1 msgW.ts =
      some { originalMessage :=
               (buildCategorySelectionBlocks classificationLowW.confidence
                 msgW.ts msgW.channel).fallback,
             classification := classificationLowW,
             notionPageId := none, potentialDuplicate := none,
             messages := [], createdAt := envLowW.now } := by
  have hconf : classificationLowW.confidence < CONFIDENCE_THRESHOLD := by
    norm_num [CONFIDENCE_THRESHOLD, classificationLowW, classificationW]
  have h := processNewMessage_low_confidence_prompts envLowW stEmpty msgW
    classificationLowW "inbox1" rfl hconf rfl
  exact ⟨hconf, h.2.1, h.2.2.1⟩

/-- **C7.**  When the classification oracle call or a store write throws
during a capture, the thread-context map is left unchanged (no
`ThreadContext` is created) and the last action is the in-channel error
notification. -/
theorem processNewMessage_throw_leaves_state
    (env : CaptureEnv) (st : AgentState) (msg : MessageInfo)
    (h : captureOracleOrWriteThrows env) :
    (processNewMessage env st msg).1 = st ∧
    ∃ e, ((processNewMessage env st msg).2).getLast? =
      some (Effect.postText msg.channel (captureErrText e) (some msg.ts)) := by
  rcases h with ⟨e, he⟩ | ⟨c, hc, h2⟩
  · unfold processNewMessage
    rw [he]
    exact ⟨rfl, e, rfl⟩
  · rcases h2 with ⟨e, he⟩ | ⟨inboxId, hinbox, hconf, duplicates, hdups, hweak, e, he⟩
    · unfold processNewMessage
      rw [hc, he]
      exact ⟨rfl, e, rfl⟩
    · unfold processNewMessage
      rw [hc, hinbox]
      dsimp only
      rw [if_neg (not_lt.mpr hconf), hdups]
      dsimp only
      cases duplicates with
      | nil =>
        dsimp only [List.head?]
        unfold captureFileBranch
        rw [fileToNotion_err he]
        dsimp only
        exact ⟨rfl, e, by rw [List.getLast?_concat]⟩
      | cons d ds =>
        have hd : ¬ (d.score > 4/5) := by
          have := hweak d
          simp [List.head?] at this
          exact not_lt.mpr this
        dsimp only [List.head?]
        rw [if_neg hd]
        unfold captureFileBranch
        rw [fileToNotion_err he]
        dsimp only
        exact ⟨rfl, e, by rw [List.getLast?_concat]⟩

/-- **C7, witness.**  The concrete capture whose classification call
throws: state untouched, error posted. -/
theorem processNewMessage_throw_leaves_state_witness :
    captureOracleOrWriteThrows envThrowW ∧
    (processNewMessage envThrowW stEmpty msgW).1 = stEmpty := by
  have hthrow : captureOracleOrWriteThrows envThrowW :=
    Or.inl ⟨"OpenRouter API error: 500", rfl⟩
  exact ⟨hthrow, (processNewMessage_throw_leaves_state envThrowW stEmpty msgW hthrow).1⟩

/-! ## Thread-reply helper lemmas -/

theorem quickResolution_update {replyText : String}
    (h : jsIncludes (strTrim (strToLower replyText)) "update" = true) :
    quickResolution replyText = some true := by
  unfold quickResolution
  simp [h]

theorem handleThreadReply_eq_intentPath
    (env : ReplyEnv) (st : AgentState) (channel threadTs replyText msgTs : String)
    (context : ThreadContext)
    (hctx : getContext st threadTs = some context)
    (hquick : context.potentialDuplicate = none ∨ quickResolution replyText = none) :
    handleThreadReply env st channel threadTs replyText msgTs =
      threadIntentPath env st context threadTs channel replyText
        (context.messages ++ [{ role := Role.user, content := replyText, ts := msgTs }]) := by
  unfold handleThreadReply
  rw [hctx]
  dsimp only
  rcases hquick with h | h
  · rw [h]
  · cases hd : context.potentialDuplicate with
    | none => rfl
    | some dup =>
      rw [h]

/-! ## Thread-reply theorems -/

/-- **C4.**  A reply whose lowercased text contains `update` while a
duplicate is pending takes the fast path: the existing record (the stored
page id) is patched with the classification's update properties, the
context's `potentialDuplicate` is cleared and its `notionPageId` is set
to the existing record's id, and the intent-detection oracle is never
invoked. -/
theorem handleThreadReply_update_fast_path
    (env : ReplyEnv) (st : AgentState) (channel threadTs replyText msgTs : String)
    (context : ThreadContext) (dup : PotentialDuplicate)
    (hctx : getContext st threadTs = some context)
    (hdup : context.potentialDuplicate = some dup)
    (hword : jsIncludes (strTrim (strToLower replyText)) "update" = true)
    (hok : env.updateRes = .ok ()) :
    (handleThreadReply env st channel threadTs replyText msgTs).2 =
      [Effect.updatePage dup.pageId (buildUpdateProperties env.today context.classification),
       Effect.postText channel (updatedExistingMsg dup) (some threadTs)] ∧
    Effect.intentCall ∉ (handleThreadReply env st channel threadTs replyText msgTs).2 ∧
    getContext (handleThreadReply env st channel threadTs replyText msgTs).1 threadTs =
      some { context with
        notionPageId := some dup.pageId,
        potentialDuplicate := none,
        messages := context.messages ++
          [{ role := .user, content := replyText, ts := msgTs },
           { role := .assistant, content := updatedExistingMsg dup, ts := env.nowTs }] } := by
  have heq : handleThreadReply env st channel threadTs replyText msgTs =
      handleDuplicateUpdate env st context threadTs channel
        (context.messages ++ [{ role := Role.user, content := replyText, ts := msgTs }]) := by
    unfold handleThreadReply
    rw [hctx]
    dsimp only
    rw [hdup]
    dsimp only
    rw [quickResolution_update hword]
  rw [heq]
  unfold handleDuplicateUpdate
  rw [hdup, hok]
  dsimp only
  refine ⟨rfl, by simp, ?_⟩
  rw [getContext_setContext_self]
  simp

/-- **C4, witness.**  The concrete reply `"update"` on a pending
duplicate: the existing page is patched and no intent call happens. -/
theorem handleThreadReply_update_fast_path_witness :
    jsIncludes (strTrim (strToLower "update")) "update" = true ∧
    Effect.intentCall ∉
      (handleThreadReply envReplySameCatW stDupW "C1" "111.222" "update" "111.333").2 := by
  have h := handleThreadReply_update_fast_path envReplySameCatW stDupW "C1" "111.222"
    "update" "111.333" ctxDupW
    { pageId := "dup1", name := "Sarah Connor", category := .person, score := 5/6 }
    rfl rfl (by decide) rfl
  exact ⟨by decide, h.2.1⟩

/-- **C5, counterexample.**  The claim says every non-query intent branch
appends the user's reply and the system's response to
`ThreadContext.messages` and persists the context.  The same-category
`correct_category` branch does neither: on a concrete run the state is
returned untouched and the stored message history stays empty. -/
theorem handleThreadReply_same_category_drops_history :
    (handleThreadReply envReplySameCatW stFiledW "C1" "111.222"
      "this is a person" "111.333").1 = stFiledW ∧
    (getContext stFiledW "111.222").map (fun ctx => ctx.messages) = some [] :=
  ⟨rfl, rfl⟩

/-- **C5, amended.**  Intent-handling branches that complete their action
(cross-category re-file, successful field update, successful context
append, successful related-record creation, and the `unclear` menu)
append both the user's reply and the system's response to
`ThreadContext.messages` and persist the context; the `query` branch
persists only the user's reply; the report-only branches (same-category
or missing-category correction, not-yet-filed or incomplete field
update / context / related-record requests) post their reply without
touching the stored context. -/
theorem handleThreadReply_persistence_by_branch
    (env : ReplyEnv) (st : AgentState) (channel threadTs replyText msgTs : String)
    (context : ThreadContext) (intent : ThreadIntent)
    (hctx : getContext st threadTs = some context)
    (hquick : context.potentialDuplicate = none ∨ quickResolution replyText = none)
    (hintent : env.intentRes = .ok intent) :
    (intent.intent = .correct_category →
      ∀ newCategory pageId, intent.details.newCategory = some newCategory →
        newCategory ≠ context.classification.category →
        env.createRes (dbFor newCategory) = .ok pageId →
        getContext (handleThreadReply env st channel threadTs replyText msgTs).1 threadTs =
          some { context with
            classification := { context.classification with
              category := newCategory, confidence := 19/20 },
            notionPageId := some pageId,
            messages := context.messages ++
              [{ role := .user, content := replyText, ts := msgTs },
               { role := .assistant,
                 content := movedMsg newCategory context.classification.name,
                 ts := env.nowTs }] }) ∧
    (intent.intent = .correct_category →
      (intent.details.newCategory = none ∨
        intent.details.newCategory = some context.classification.category) →
      (handleThreadReply env st channel threadTs replyText msgTs).1 = st) ∧
    (intent.intent = .update_field →
      ∀ pageId field value, jsTruthy context.notionPageId = some pageId →
        jsTruthy intent.details.field = some field →
        jsTruthy intent.details.value = some value →
        env.updateRes = .ok () →
        getContext (handleThreadReply env st channel threadTs replyText msgTs).1 threadTs =
          some { context with
            messages := context.messages ++
              [{ role := .user, content := replyText, ts := msgTs },
               { role := .assistant, content := updatedFieldMsg field value,
                 ts := env.nowTs }] }) ∧
    (intent.intent = .update_field →
      (jsTruthy context.notionPageId = none ∨ jsTruthy intent.details.field = none ∨
        jsTruthy intent.details.value = none) →
      (handleThreadReply env st channel threadTs replyText msgTs).1 = st) ∧
    (intent.intent = .add_context →
      ∀ pageId contextText, jsTruthy context.notionPageId = some pageId →
        jsTruthy intent.details.context = some contextText →
        env.updateRes = .ok () →
        getContext (handleThreadReply env st channel threadTs replyText msgTs).1 threadTs =
          some { context with
            messages := context.messages ++
              [{ role := .user, content := replyText, ts := msgTs },
               { role := .assistant, content := addedContextMsg contextText,
                 ts := env.nowTs }] }) ∧
    (intent.intent = .add_context →
      (jsTruthy context.notionPageId = none ∨ jsTruthy intent.details.context = none) →
      (handleThreadReply env st channel threadTs replyText msgTs).1 = st) ∧
    (intent.intent = .create_related →
      ∀ category name pageId, intent.details.category = some category →
        jsTruthy intent.details.name = some name →
        env.createRes (dbFor category) = .ok pageId →
        getContext (handleThreadReply env st channel threadTs replyText msgTs).1 threadTs =
          some { context with
            messages := context.messages ++
              [{ role := .user, content := replyText, ts := msgTs },
               { role := .assistant, content := createdRelatedMsg category name,
                 ts := env.nowTs }] }) ∧
    (intent.intent = .create_related →
      (intent.details.category = none ∨ jsTruthy intent.details.name = none) →
      (handleThreadReply env st channel threadTs replyText msgTs).1 = st) ∧
    (intent.intent = .query →
      getContext (handleThreadReply env st channel threadTs replyText msgTs).1 threadTs =
        some { context with
          messages := context.messages ++
            [{ role := .user, content := replyText, ts := msgTs }] }) ∧
    (intent.intent = .unclear →
      getContext (handleThreadReply env st channel threadTs replyText msgTs).1 threadTs =
        some { context with
          messages := context.messages ++
            [{ role := .user, content := replyText, ts := msgTs },
             { role := .assistant,
               content := (buildThreadOptionsBlocks threadTs channel
                 context.potentialDuplicate.isSome).fallback,
               ts := env.nowTs }] }) := by
  rw [handleThreadReply_eq_intentPath env st channel threadTs replyText msgTs context
    hctx hquick]
  unfold threadIntentPath
  rw [hintent]
  dsimp only
  refine ⟨?_, ?_, ?_, ?_, ?_, ?_, ?_, ?_, ?_, ?_⟩
  · intro hk newCategory pageId hnew hne hcreate
    rw [hk]
    dsimp only
    rw [hnew]
    dsimp only
    rw [if_pos hne]
    unfold fileToNotion
    dsimp only
    rw [hcreate]
    dsimp only
    rw [getContext_setContext_self]
    simp
  · intro hk hdisj
    rw [hk]
    dsimp only
    rcases hdisj with h | h
    · rw [h]
    · rw [h]
      dsimp only
      rw [if_neg (fun hne => hne rfl)]
  · intro hk pageId field value hp hf hv hup
    rw [hk]
    dsimp only
    rw [hp, hf, hv]
    dsimp only
    rw [hup]
    dsimp only
    rw [getContext_setContext_self]
    simp
  · intro hk hdisj
    rw [hk]
    dsimp only
    rcases hdisj with h | h | h
    · rw [h]
    · cases hp : jsTruthy context.notionPageId with
      | none => rfl
      | some pageId => rw [h]
    · cases hp : jsTruthy context.notionPageId with
      | none => rfl
      | some pageId =>
        cases hf : jsTruthy intent.details.field with
        | none => rfl
        | some field => rw [h]
  · intro hk pageId contextText hp hc hup
    rw [hk]
    dsimp only
    rw [hp, hc]
    dsimp only
    rw [hup]
    dsimp only
    rw [getContext_setContext_self]
    simp
  · intro hk hdisj
    rw [hk]
    dsimp only
    rcases hdisj with h | h
    · rw [h]
    · cases hp : jsTruthy context.notionPageId with
      | none => rfl
      | some pageId => rw [h]
  · intro hk category name pageId hcat hname hcreate
    rw [hk]
    dsimp only
    rw [hcat, hname]
    dsimp only
    unfold fileToNotion
    dsimp only
    rw [hcreate]
    dsimp only
    rw [getContext_setContext_self]
    simp
  · intro hk hdisj
    rw [hk]
    dsimp only
    rcases hdisj with h | h
    · rw [h]
    · cases hc : intent.details.category with
      | none => rfl
      | some category => rw [h]
  · intro hk
    rw [hk]
    dsimp only
    rw [getContext_setContext_self]
  · intro hk
    rw [hk]
    dsimp only
    rw [getContext_setContext_self]
    simp

/-- **C5, witness.**  The successful field-update branch at a concrete
input: the user's reply and the bot's confirmation are both appended and
persisted. -/
theorem handleThreadReply_persistence_witness :
    jsTruthy ctxFiledW.notionPageId = some "page1" ∧
    getContext (handleThreadReply envReplyFieldW stFiledW "C1" "111.222"
        "set context to works at Cyberdyne" "111.333").1 "111.222" =
      some { ctxFiledW with
        messages :=
          [{ role := .user, content := "set context to works at Cyberdyne",
             ts := "111.333" },
           { role := .assistant,
             content := updatedFieldMsg "context" "works at Cyberdyne",
             ts := envReplyFieldW.nowTs }] } := by
  have h := (handleThreadReply_persistence_by_branch envReplyFieldW stFiledW "C1" "111.222"
    "set context to works at Cyberdyne" "111.333" ctxFiledW intentFieldW
    rfl (Or.inl rfl) rfl).2.2.1 rfl "page1" "context" "works at Cyberdyne" rfl rfl rfl rfl
  exact ⟨rfl, by simpa using h⟩

/-- **C6.**  A `correct_category` intent whose `newCategory` equals the
current category does not re-file: no record-creation effect is emitted,
the reply is the "already categorized" report, and the state (hence the
context's classification and `notionPageId`) is unchanged. -/
theorem handleThreadReply_same_category_reports
    (env : ReplyEnv) (st : AgentState) (channel threadTs replyText msgTs : String)
    (context : ThreadContext) (intent : ThreadIntent)
    (hctx : getContext st threadTs = some context)
    (hquick : context.potentialDuplicate = none ∨ quickResolution replyText = none)
    (hintent : env.intentRes = .ok intent)
    (hkind : intent.intent = .correct_category)
    (hsame : intent.details.newCategory = some context.classification.category) :
    handleThreadReply env st channel threadTs replyText msgTs =
      (st, [Effect.intentCall,
            Effect.postText channel (alreadyMsg context.classification.category)
              (some threadTs)]) ∧
    destCreates (handleThreadReply env st channel threadTs replyText msgTs).2 = [] := by
  have heq : handleThreadReply env st channel threadTs replyText msgTs =
      (st, [Effect.intentCall,
            Effect.postText channel (alreadyMsg context.classification.category)
              (some threadTs)]) := by
    rw [handleThreadReply_eq_intentPath env st channel threadTs replyText msgTs context
      hctx hquick]
    unfold threadIntentPath
    rw [hintent]
    dsimp only
    rw [hkind]
    dsimp only
    rw [hsame]
    dsimp only
    rw [if_neg (fun hne => hne rfl)]
    rfl
  rw [heq]
  exact ⟨rfl, rfl⟩

/-- **C6, witness.**  The concrete same-category correction: state
unchanged, "already categorized" reply, no record created. -/
theorem handleThreadReply_same_category_reports_witness :
    getContext stFiledW "111.222" = some ctxFiledW ∧
    handleThreadReply envReplySameCatW stFiledW "C1" "111.222"
        "actually a person" "111.333" =
      (stFiledW, [Effect.intentCall,
        Effect.postText "C1" (alreadyMsg ctxFiledW.classification.category)
          (some "111.222")]) := by
  have h := handleThreadReply_same_category_reports envReplySameCatW stFiledW "C1"
    "111.222" "actually a person" "111.333" ctxFiledW intentSameCatW
    rfl (Or.inl rfl) rfl rfl rfl
  exact ⟨rfl, h.1⟩

end SecondBrain
